import Mathlib

/-!
Verification development for the XREF Manager data-access layer
(client-side DataService: batched fetch, tplnr key resolution,
validate-then-commit bulk import, single-row mutations).

The definitions below are a shallow embedding of the TypeScript
DataService.  JavaScript strings are modelled as Lean String values,
JavaScript numbers reaching arithmetic as rationals, the warehouse as an
explicit state (the xref table plus the vw_cfentity lookup source), and
each query issued through the query executor as a structured value that
is both applied to the state and recorded in a trace.  UUID generation
(Math.random based in the source) is modelled as drawing consecutive
identifiers from a supply counter carried in the state; timestamps are
passed in as an explicit parameter standing for the current time.
-/

/-- Whitespace test used by the source's regular expressions and trims
(the ASCII part of the JavaScript whitespace class). -/
def isWsChar (c : Char) : Bool :=
  c = ' ' || c = '\t' || c = '\n' || c = '\r' || c = '\x0B' || c = '\x0C'

/-- Leading-whitespace removal on character lists. -/
def dropLeadingWs (l : List Char) : List Char :=
  l.dropWhile isWsChar

/-- Trailing-whitespace removal on character lists: a maximal whitespace
suffix is removed, everything else kept. -/
def dropTrailingWs : List Char → List Char
  | [] => []
  | c :: r =>
    let r' := dropTrailingWs r
    if r' = [] && isWsChar c then [] else c :: r'

/-- Model of the JavaScript String.prototype.trim call. -/
def jsTrim (s : String) : String :=
  String.mk (dropTrailingWs (dropLeadingWs s.data))

/-- Replacement of every maximal whitespace run by one space: the effect
of the source's replace of the whitespace-run pattern by a single
space. -/
def collapseWs : List Char → List Char
  | [] => []
  | [c] => if isWsChar c then [' '] else [c]
  | c1 :: c2 :: r =>
    if isWsChar c1 && isWsChar c2 then collapseWs (c2 :: r)
    else (if isWsChar c1 then ' ' else c1) :: collapseWs (c2 :: r)

/-- Normalization applied to tplnr natural keys in the source: collapse
whitespace runs to a single space, then trim. -/
def jsNormalize (s : String) : String :=
  String.mk (dropTrailingWs (dropLeadingWs (collapseWs s.data)))

/-- Splitting of a character list at every occurrence of a separator
character, the way the JavaScript split call behaves (empty pieces are
kept). -/
def splitCharList (sep : Char) : List Char → List (List Char)
  | [] => [[]]
  | c :: r =>
    match splitCharList sep r with
    | [] => [[c]]
    | g :: gs => if c = sep then [] :: g :: gs else (c :: g) :: gs

/-- Model of the JavaScript String.prototype.split call with a
one-character separator. -/
def jsSplit (s : String) (sep : Char) : List String :=
  (splitCharList sep s.data).map String.mk

/-- Decimal-digit run to a natural number. -/
def digitsToNat (l : List Char) : Nat :=
  l.foldl (fun n c => 10 * n + (c.toNat - '0'.toNat)) 0

/-- Model of the JavaScript parseFloat builtin on the inputs the
pipeline feeds it: leading whitespace is skipped, an optional sign, a
digit run with an optional fractional part and an optional exponent are
read as the longest valid prefix, and any trailing junk is ignored; when
no digit is found the result is NaN, modelled as none.  (The Infinity
spellings accepted by parseFloat are not modelled; no claim depends on
them.) -/
def jsParseFloat (s : String) : Option ℚ :=
  let l0 := s.data.dropWhile isWsChar
  let sign : ℚ := if l0.head? = some '-' then -1 else 1
  let l1 := if l0.head? = some '-' || l0.head? = some '+' then l0.drop 1 else l0
  let intPart := l1.takeWhile Char.isDigit
  let l2 := l1.dropWhile Char.isDigit
  let fracPart := if l2.head? = some '.' then (l2.drop 1).takeWhile Char.isDigit else []
  let l3 := if l2.head? = some '.' then (l2.drop 1).dropWhile Char.isDigit else l2
  if intPart = [] && fracPart = [] then none
  else
    let mant : ℚ :=
      (digitsToNat intPart : ℚ) + (digitsToNat fracPart : ℚ) / ((10 : ℚ) ^ fracPart.length)
    let expo : Int :=
      if l3.head? = some 'e' || l3.head? = some 'E' then
        let e0 := l3.drop 1
        let esign : Int := if e0.head? = some '-' then -1 else 1
        let e1 := if e0.head? = some '-' || e0.head? = some '+' then e0.drop 1 else e0
        let edig := e1.takeWhile Char.isDigit
        if edig = [] then 0 else esign * (digitsToNat edig : Int)
      else 0
    some (sign * mant * (10 : ℚ) ^ expo)

/-- Model of the JavaScript or-with-default idiom on an optional string
(the source writes userEmail or-else a literal): null, undefined and the
empty string all fall back to the default. -/
def jsOrStr (o : Option String) (d : String) : String :=
  match o with
  | some v => if v = "" then d else v
  | none => d

/-- Model of the JavaScript or-with-default idiom on an optional number
used for page and pageSize: null, undefined and zero all fall back to
the default. -/
def jsOrNat (o : Option Nat) (d : Nat) : Nat :=
  match o with
  | some n => if n = 0 then d else n
  | none => d

/-- Stored row of the xref base table (the eighteen columns named in the
source's INSERT statements).  The view-only columns tplnr, entname and
asset_team come from a join against the lookup source and are not part
of the stored record; record identifiers (UUIDs in the source) are
modelled as natural numbers drawn from a fresh-id supply. -/
structure DataEntry where
  id : Nat
  scada_tag : String
  pi_tag : String
  product_type : String
  tag_type : String
  aggregation_type : String
  conversion_factor : ℚ
  ent_hid : Int
  test_site : String
  api10 : String
  uom : String
  meter_id : String
  is_active : Bool
  is_deleted : Bool
  create_user : String
  create_date : String
  change_user : String
  change_date : String
deriving DecidableEq, Repr

/-- Query options accepted by getEntries (page, pageSize, sortBy,
sortOrder, filters, search), mirroring the QueryOptions interface. -/
structure QueryOptions where
  page : Option Nat := none
  pageSize : Option Nat := none
  sortBy : Option String := none
  sortOrder : Option String := none
  filters : List (String × String) := []
  search : Option String := none
deriving DecidableEq, Repr

/-- Column projection used to interpret a filter equality condition
(column = value) from the dynamically built WHERE clause: each known
column is rendered as the string the bound parameter is compared
against; an unknown column matches nothing. -/
def colValue (r : DataEntry) (col : String) : Option String :=
  if col = "scada_tag" then some r.scada_tag
  else if col = "pi_tag" then some r.pi_tag
  else if col = "product_type" then some r.product_type
  else if col = "tag_type" then some r.tag_type
  else if col = "aggregation_type" then some r.aggregation_type
  else if col = "test_site" then some r.test_site
  else if col = "api10" then some r.api10
  else if col = "uom" then some r.uom
  else if col = "meter_id" then some r.meter_id
  else if col = "create_user" then some r.create_user
  else if col = "change_user" then some r.change_user
  else none

/-- Prefix test on character lists. -/
def listStartsWith : List Char → List Char → Bool
  | _, [] => true
  | [], _ :: _ => false
  | a :: h, b :: p => a = b && listStartsWith h p

/-- Containment test on character lists. -/
def listContains : List Char → List Char → Bool
  | [], needle => needle.isEmpty
  | c :: t, needle => listStartsWith (c :: t) needle || listContains t needle

/-- Substring test modelling a LIKE condition with percent wildcards on
both sides (wildcards inside the search text itself are not modelled; no
claim depends on them). -/
def likeContains (hay : String) (needle : String) : Bool :=
  listContains hay.data needle.data

/-- Evaluation of the WHERE clause getEntries builds from the options:
every filter with a non-empty value must match its column exactly (the
source skips undefined, null and empty filter values), and a non-empty
search term must occur in scada_tag, pi_tag or product_type. -/
def whereMatch (opts : QueryOptions) (r : DataEntry) : Bool :=
  (opts.filters.all fun kv =>
    if kv.2 = "" then true else colValue r kv.1 = some kv.2) &&
  (match opts.search with
   | some q => if q = "" then true else
       likeContains r.scada_tag q || likeContains r.pi_tag q ||
       likeContains r.product_type q
   | none => true)

/-- Result set of the data query before LIMIT/OFFSET windowing: the rows
satisfying the built WHERE clause together with the fixed conditions
is_active = true and is_deleted = false.  The ORDER BY clause only
permutes this set; the model keeps the table's stored order as the
query order. -/
def matchingRows (table : List DataEntry) (opts : QueryOptions) : List DataEntry :=
  table.filter fun r => whereMatch opts r && r.is_active && !r.is_deleted

/-- Window size used by the batched fetch loop (20000 rows per batch in
the source, chosen against the proxy's 6 MB payload ceiling). -/
def batchSize : Nat := 20000

/-- Body of the batched fetch loop of getEntries, written with an
explicit fuel argument standing for the loop's termination measure (the
while loop advances the offset by a full window on every continued
iteration, so any fuel of at least the result-set length plus one is
never exhausted — the sufficiency theorems below discharge the fuel
hypothesis).  At each step one LIMIT batchSize OFFSET offset window of
the (static) matching result set is requested; an empty window or one
shorter than the window size stops the loop, a full window is
accumulated and the offset advanced by the window size.  The first
component is the accumulated data, the second the list of offsets
actually queried. -/
def fetchGo (matching : List DataEntry) : Nat → Nat → List DataEntry × List Nat
  | 0, offset => ([], [offset])
  | fuel + 1, offset =>
    let batch := (matching.drop offset).take batchSize
    if batch.length = 0 then ([], [offset])
    else if batch.length < batchSize then (batch, [offset])
    else (batch ++ (fetchGo matching fuel (offset + batchSize)).1,
          offset :: (fetchGo matching fuel (offset + batchSize)).2)

/-- Batched fetch loop of getEntries starting at the given offset, with
provably sufficient fuel. -/
def fetchLoop (matching : List DataEntry) (offset : Nat) : List DataEntry × List Nat :=
  fetchGo matching (matching.length + 1) offset

/-- Paginated response shape returned by getEntries. -/
structure PaginatedData where
  data : List DataEntry
  page : Nat
  pageSize : Nat
  total : Nat
  totalPages : Nat
deriving DecidableEq, Repr

/-- Model of getEntries: the full matching result set is assembled by
the batched fetch loop starting at offset zero; page and pageSize only
feed the echoed pagination metadata (total is the length of the
assembled data, totalPages its ceiling quotient by pageSize). -/
def getEntries (table : List DataEntry) (opts : QueryOptions) : PaginatedData :=
  let pg := jsOrNat opts.page 1
  let ps := jsOrNat opts.pageSize 50
  let allData := (fetchLoop (matchingRows table opts) 0).1
  { data := allData
  , page := pg
  , pageSize := ps
  , total := allData.length
  , totalPages := (allData.length + ps - 1) / ps }

/-- Failure kinds raised by the modelled operations. -/
inductive DbError where
  | notFound
  | noFieldsToUpdate
deriving DecidableEq, Repr

/-- Model of getEntry: one lookup by id with the fixed condition
is_deleted = false; an empty result is the not-found failure, otherwise
the first returned row is the answer. -/
def getEntry (table : List DataEntry) (idv : Nat) : Except DbError DataEntry :=
  match table.filter (fun r => r.id = idv && !r.is_deleted) with
  | [] => Except.error DbError.notFound
  | r :: _ => Except.ok r

/-- Model of deleteEntry: a soft delete that sets is_deleted on every
row with the given id and stamps change_user and change_date; no row is
removed. -/
def deleteEntry (table : List DataEntry) (idv : Nat) (userEmail : Option String)
    (now : String) : List DataEntry :=
  let user := jsOrStr userEmail "system"
  table.map fun r =>
    if r.id = idv then
      { r with is_deleted := true, change_date := now, change_user := user }
    else r

/-- Subset of form fields that may accompany an update (the
DataEntryFormData interface with every field optional, as
Partial of it; the source destructures a tplnr property away before
building the SET list, which on this typed record is the identity). -/
structure UpdFields where
  scada_tag : Option String := none
  pi_tag : Option String := none
  product_type : Option String := none
  tag_type : Option String := none
  aggregation_type : Option String := none
  conversion_factor : Option ℚ := none
  ent_hid : Option Int := none
  test_site : Option String := none
  api10 : Option String := none
  uom : Option String := none
  meter_id : Option String := none
deriving DecidableEq, Repr

/-- Test for an empty dynamic SET list: no field of the update payload
is defined. -/
def UpdFields.isEmptySet (d : UpdFields) : Bool :=
  d.scada_tag = none && d.pi_tag = none && d.product_type = none &&
  d.tag_type = none && d.aggregation_type = none &&
  d.conversion_factor = none && d.ent_hid = none && d.test_site = none &&
  d.api10 = none && d.uom = none && d.meter_id = none

/-- Application of the dynamic SET list to one row: every defined field
is overwritten, every undefined field kept, and change_user and
change_date always stamped. -/
def applyUpd (r : DataEntry) (d : UpdFields) (user now : String) : DataEntry :=
  { r with
    scada_tag := d.scada_tag.getD r.scada_tag
  , pi_tag := d.pi_tag.getD r.pi_tag
  , product_type := d.product_type.getD r.product_type
  , tag_type := d.tag_type.getD r.tag_type
  , aggregation_type := d.aggregation_type.getD r.aggregation_type
  , conversion_factor := d.conversion_factor.getD r.conversion_factor
  , ent_hid := d.ent_hid.getD r.ent_hid
  , test_site := d.test_site.getD r.test_site
  , api10 := d.api10.getD r.api10
  , uom := d.uom.getD r.uom
  , meter_id := d.meter_id.getD r.meter_id
  , change_user := user
  , change_date := now }

/-- Model of updateEntry: when no field is defined it fails with the
no-fields failure before touching the table; otherwise it applies the
dynamic SET list (plus the change stamps) to every row with the given
id and re-reads the row by id.  The pair holds the table after the call
and the re-read outcome. -/
def updateEntry (table : List DataEntry) (idv : Nat) (d : UpdFields)
    (userEmail : Option String) (now : String) :
    List DataEntry × Except DbError DataEntry :=
  let user := jsOrStr userEmail "system"
  if d.isEmptySet then (table, Except.error DbError.noFieldsToUpdate)
  else
    let t' := table.map fun r => if r.id = idv then applyUpd r d user now else r
    (t', getEntry t' idv)

/-- Row of the lookup source operations.fdc.vw_cfentity: a natural-key
code and a possibly null surrogate key.  A null entcode behaves exactly
like the empty string in every observable path (both are falsy and both
are dropped), so it is represented by the empty string. -/
structure LookupRow where
  entcode : String
  enthid : Option Int
deriving DecidableEq, Repr

/-- Structured form of a SQL statement submitted through the query
executor by the resolution and import paths: the key-lookup SELECT with
its inlined IN list, or the multi-row INSERT with its value rows. -/
inductive Query where
  | lookupQ : List String → Query
  | insertQ : List DataEntry → Query
deriving DecidableEq, Repr

/-- Test for the INSERT shape of a recorded query. -/
def Query.isInsert : Query → Bool
  | Query.insertQ _ => true
  | Query.lookupQ _ => false

/-- Warehouse-side evaluation of the lookup query: every source row
whose whitespace-normalized entcode is in the inlined key list yields
one result row carrying the normalized key and the surrogate key. -/
def runLookup (src : List LookupRow) (keys : List String) : List (String × Option Int) :=
  src.filterMap fun r =>
    let k := jsNormalize r.entcode
    if k ∈ keys then some (k, r.enthid) else none

/-- Map insertion with replacement, the behaviour of Map.set in the
source. -/
def upsert (m : List (String × Int)) (k : String) (v : Int) : List (String × Int) :=
  if m.any (fun p => p.1 = k) then
    m.map fun p => if p.1 = k then (k, v) else p
  else m ++ [(k, v)]

/-- Map read, the behaviour of Map.get in the source. -/
def mapGet (m : List (String × Int)) (k : String) : Option Int :=
  (m.find? fun p => p.1 = k).map fun p => p.2

/-- Left-to-right traversal of the lookup result rows starting from an
accumulated map: a row whose key is empty or whose surrogate key is null
or zero is skipped (the source guards on the truthiness of both fields),
every other row is set into the map, later rows overwriting earlier
ones. -/
def buildTplnrMapFrom (acc : List (String × Int)) :
    List (String × Option Int) → List (String × Int)
  | [] => acc
  | p :: rest =>
    match p.2 with
    | some v =>
      if p.1 ≠ "" && v ≠ 0 then buildTplnrMapFrom (upsert acc p.1 v) rest
      else buildTplnrMapFrom acc rest
    | none => buildTplnrMapFrom acc rest

/-- Construction of the tplnr-to-ent_hid map from the lookup result
rows, starting from the empty map. -/
def buildTplnrMap (rows : List (String × Option Int)) : List (String × Int) :=
  buildTplnrMapFrom [] rows

/-- Model of lookupEntHidFromTplnr: the empty input set returns an empty
map without querying; otherwise the inputs are whitespace-normalized,
one lookup query is issued with the normalized keys inlined, and the
result rows are folded into the map.  The second component records the
queries issued. -/
def lookupEntHidFromTplnr (src : List LookupRow) (tplnrValues : List String) :
    List (String × Int) × List Query :=
  if tplnrValues = [] then ([], [])
  else
    let trimmed := tplnrValues.map jsNormalize
    (buildTplnrMap (runLookup src trimmed), [Query.lookupQ trimmed])

/-- Lowercase conversion of one character (the ASCII range the header
names use; the toLowerCase call in the source is Unicode-wide but the
column names compared against are ASCII). -/
def asciiLower (c : Char) : Char :=
  if 'A' ≤ c && c ≤ 'Z' then Char.ofNat (c.toNat + 32) else c

/-- Model of the JavaScript toLowerCase call on header names. -/
def jsToLower (s : String) : String :=
  String.mk (s.data.map asciiLower)

/-- Non-blank lines of the raw CSV text: the input is split at newlines
and every line that is empty after trimming is dropped. -/
def csvLines (csvData : String) : List String :=
  (jsSplit csvData '\n').filter fun l => jsTrim l ≠ ""

/-- Header row of the CSV: the first non-blank line split at commas,
each column name trimmed and lowercased. -/
def csvHeader (csvData : String) : List String :=
  match csvLines csvData with
  | [] => []
  | h :: _ => (jsSplit h ',').map fun c => jsToLower (jsTrim c)

/-- Cell values of one data line: the line split at commas, each value
trimmed. -/
def lineValues (line : String) : List String :=
  (jsSplit line ',').map jsTrim

/-- Index of the last occurrence of a column name in the header.  The
source builds the row object by assigning row[col] for every header
position in order, so a duplicated column name ends up holding the value
of its last position. -/
def lastIdxOf : List String → String → Option Nat
  | [], _ => none
  | a :: rest, x =>
    match lastIdxOf rest x with
    | some i => some (i + 1)
    | none => if a = x then some 0 else none

/-- Value of a named field of the row object built from a data line:
none when the column is absent from the header or the line has no cell
at its position (undefined in the source). -/
def rawField (header vals : List String) (col : String) : Option String :=
  (lastIdxOf header col).bind fun i => vals.get? i

/-- Truthiness of a row field as the source's required-field checks test
it: the column must exist, have a cell, and the trimmed cell must be
non-empty. -/
def truthyField (header vals : List String) (col : String) : Bool :=
  match rawField header vals col with
  | some v => v ≠ ""
  | none => false

/-- Number stored in the row object for conversion_factor during
validation: parseFloat of the cell with fallback zero (NaN and zero both
give zero); none when the header has no conversion_factor column. -/
def storedConv (header vals : List String) : Option ℚ :=
  (lastIdxOf header "conversion_factor").map fun i =>
    ((vals.get? i).bind jsParseFloat).getD 0

/-- Number the commit step interpolates into the INSERT for
conversion_factor: the stored value with fallback one, so an undefined
or zero stored value is written as one. -/
def persistedConv (header vals : List String) : ℚ :=
  match storedConv header vals with
  | some x => if x = 0 then 1 else x
  | none => 1

/-- Ordered first-occurrence index, the behaviour of indexOf on the
header when the tplnr column position is located during key
collection. -/
def firstIdxOf (l : List String) (x : String) : Option Nat :=
  l.indexOf? x

/-- Distinct normalized tplnr values collected from the data lines in
order of first appearance (the Set built before the lookup query): a
line contributes when the header has a tplnr column, the line has a
truthy cell there, and the normalized value is new. -/
def collectTplnr (header : List String) (dataLines : List String) : List String :=
  dataLines.foldl
    (fun acc line =>
      let vals := lineValues line
      match firstIdxOf header "tplnr" with
      | some ti =>
        match vals.get? ti with
        | some v =>
          if v ≠ "" then
            let k := jsNormalize v
            if k ∈ acc then acc else acc ++ [k]
          else acc
        | none => acc
      | none => acc)
    []

/-- Ordered messages of the required-column checks, in the order the
source tests them; none when every required column is truthy. -/
def firstRequiredError (header vals : List String) : Option String :=
  if !truthyField header vals "scada_tag" then some ("scada_tag is required")
  else if !truthyField header vals "pi_tag" then some ("pi_tag is required")
  else if !truthyField header vals "product_type" then some ("product_type is required")
  else if !truthyField header vals "tag_type" then some ("tag_type is required")
  else if !truthyField header vals "aggregation_type" then some ("aggregation_type is required")
  else none

/-- Validation outcome for one data line: the message of the first
failing check, mirroring the throw order of the source (tplnr presence,
key resolution against the map, then the five required columns); none
when the row is valid.  The resolved surrogate key is re-tested for
truthiness exactly as the source tests the map value. -/
def rowErrorMsg (header vals : List String) (m : List (String × Int)) : Option String :=
  if truthyField header vals "tplnr" then
    let k := jsNormalize ((rawField header vals "tplnr").getD "")
    match mapGet m k with
    | some e =>
      if e = 0 then some ("No ent_hid found for tplnr: " ++ k)
      else firstRequiredError header vals
    | none => some ("No ent_hid found for tplnr: " ++ k)
  else some ("tplnr is required")

/-- Per-row error entry of the import report. -/
structure ImportRowError where
  row : Nat
  field : String
  value : String
  errorMessage : String
deriving DecidableEq, Repr

/-- Validation pass over the data lines, carrying the index of the line
in the parsed line list (the first data line has index one): each line
yields either one error entry or its cell values for the commit step. -/
def validateAux (header : List String) (m : List (String × Int)) :
    List String → Nat → List ImportRowError × List (List String)
  | [], _ => ([], [])
  | line :: rest, i =>
    let tail := validateAux header m rest (i + 1)
    match rowErrorMsg header (lineValues line) m with
    | some msg =>
      ({ row := i, field := "general", value := line, errorMessage := msg } :: tail.1, tail.2)
    | none => (tail.1, lineValues line :: tail.2)

/-- Surrogate key interpolated into the INSERT for one committed row:
the map value for the row's normalized tplnr (always set for a row that
passed validation). -/
def entHidOf (header vals : List String) (m : List (String × Int)) : Int :=
  (mapGet m (jsNormalize ((rawField header vals "tplnr").getD ""))).getD 0

/-- Record built for one committed row of the multi-row INSERT: string
fields fall back to the empty string the way the or-empty interpolation
does, conversion_factor is the committed coercion, ent_hid the resolved
key, lifecycle flags are inserted as active and not deleted, and the
audit columns carry the acting user and the current time. -/
def rowToEntry (header vals : List String) (m : List (String × Int))
    (idv : Nat) (user now : String) : DataEntry :=
  { id := idv
  , scada_tag := (rawField header vals "scada_tag").getD ""
  , pi_tag := (rawField header vals "pi_tag").getD ""
  , product_type := (rawField header vals "product_type").getD ""
  , tag_type := (rawField header vals "tag_type").getD ""
  , aggregation_type := (rawField header vals "aggregation_type").getD ""
  , conversion_factor := persistedConv header vals
  , ent_hid := entHidOf header vals m
  , test_site := (rawField header vals "test_site").getD ""
  , api10 := (rawField header vals "api10").getD ""
  , uom := (rawField header vals "uom").getD ""
  , meter_id := (rawField header vals "meter_id").getD ""
  , is_active := true
  , is_deleted := false
  , create_user := user
  , create_date := now
  , change_user := user
  , change_date := now }

/-- Records of the multi-row INSERT, each drawing the next identifier
from the supply in row order (each row gets a freshly generated
identifier at commit time). -/
def buildRecords (header : List String) (m : List (String × Int)) (user now : String) :
    List (List String) → Nat → List DataEntry
  | [], _ => []
  | vals :: rest, n => rowToEntry header vals m n user now :: buildRecords header m user now rest (n + 1)

/-- Import report returned by bulkImport. -/
structure CSVImportResult where
  totalRows : Nat
  successfulImports : Nat
  failedImports : Nat
  errors : List ImportRowError
  importId : String
  timestamp : String
deriving DecidableEq, Repr

/-- Failure raised by bulkImport before any work is done. -/
inductive ImportFailure where
  | emptyInput
deriving DecidableEq, Repr

/-- Warehouse state seen by the data service: the xref table, the
vw_cfentity lookup source, and the fresh-identifier supply modelling
UUID generation. -/
structure DBState where
  table : List DataEntry
  lookupSrc : List LookupRow
  nextId : Nat
deriving DecidableEq, Repr

/-- Key map built by the import's inline lookup: the distinct normalized
tplnr values of the data lines are resolved in one query when the set is
non-empty; the second component records the query issued. -/
def importKeyMapQ (src : List LookupRow) (csvData : String) :
    List (String × Int) × List Query :=
  let keys := collectTplnr (csvHeader csvData) ((csvLines csvData).drop 1)
  if keys = [] then ([], [])
  else (buildTplnrMap (runLookup src keys), [Query.lookupQ keys])

/-- Key map of an import, without the query trace. -/
def importKeyMap (src : List LookupRow) (csvData : String) : List (String × Int) :=
  (importKeyMapQ src csvData).1

/-- Model of bulkImport.  Parsing: non-blank lines, first line the
header, empty-input failure when no line remains.  Key resolution: one
lookup for the distinct normalized tplnr values.  Validation: every data
line independently, errors collected.  Decision: any error stops the
whole import with zero successful imports and the table untouched.  Commit:
one multi-row INSERT covering every row, each with a fresh identifier,
appended to the table.  The triple holds the outcome, the state after
the call and the queries issued.  (A zero-row INSERT is applied as a
plain no-op append here; in the real system its VALUES-less SQL text is
malformed and the warehouse rejects it — see the related theorem.) -/
def bulkImport (s : DBState) (csvData : String) (userEmail : Option String)
    (now : String) : Except ImportFailure CSVImportResult × DBState × List Query :=
  let user := jsOrStr userEmail "system"
  let importId := "import-" ++ now
  let lines := csvLines csvData
  if lines = [] then (Except.error ImportFailure.emptyInput, s, [])
  else
    let totalRows := lines.length - 1
    let header := csvHeader csvData
    let dataLines := lines.drop 1
    let mq := importKeyMapQ s.lookupSrc csvData
    let validated := validateAux header mq.1 dataLines 1
    if validated.1 = [] then
      let recs := buildRecords header mq.1 user now validated.2 s.nextId
      (Except.ok
        { totalRows := totalRows
        , successfulImports := validated.2.length
        , failedImports := 0
        , errors := []
        , importId := importId
        , timestamp := now },
       { s with table := s.table ++ recs, nextId := s.nextId + recs.length },
       mq.2 ++ [Query.insertQ recs])
    else
      (Except.ok
        { totalRows := totalRows
        , successfulImports := 0
        , failedImports := validated.1.length
        , errors := validated.1
        , importId := importId
        , timestamp := now },
       s, mq.2)

deriving instance DecidableEq for Except

/-- Concrete record used as input by the witness theorems. -/
def sampleEntry : DataEntry :=
  { id := 1
  , scada_tag := "S1"
  , pi_tag := "P1"
  , product_type := "Gas"
  , tag_type := "Flow"
  , aggregation_type := "SUM"
  , conversion_factor := 2
  , ent_hid := 42
  , test_site := ""
  , api10 := ""
  , uom := ""
  , meter_id := ""
  , is_active := true
  , is_deleted := false
  , create_user := "u"
  , create_date := "d0"
  , change_user := "u"
  , change_date := "d0" }

theorem fetchGo_fst (m : List DataEntry) :
    ∀ (fuel o : Nat), m.length ≤ o + fuel * batchSize →
      (fetchGo m fuel o).1 = List.drop o m := by
  intro fuel
  induction fuel with
  | zero =>
    intro o h
    simp only [Nat.zero_mul, Nat.add_zero] at h
    simp [fetchGo, List.drop_eq_nil_iff_le.mpr h]
  | succ fuel ih =>
    intro o h
    rw [fetchGo]
    by_cases h0 : ((m.drop o).take batchSize).length = 0
    · rw [if_pos h0]
      have hle : m.length ≤ o := by
        simp only [List.length_take, List.length_drop, batchSize] at h0
        omega
      simp [List.drop_eq_nil_iff_le.mpr hle]
    · rw [if_neg h0]
      by_cases hlt : ((m.drop o).take batchSize).length < batchSize
      · rw [if_pos hlt]
        simp only [List.length_take, List.length_drop] at hlt
        exact List.take_of_length_le (by simp only [List.length_drop]; omega)
      · rw [if_neg hlt]
        have hrec : m.length ≤ (o + batchSize) + fuel * batchSize := by
          have : o + (fuel + 1) * batchSize = (o + batchSize) + fuel * batchSize := by ring
          omega
        simp only [ih (o + batchSize) hrec]
        have hd : List.drop (o + batchSize) m = List.drop batchSize (List.drop o m) := by
          rw [List.drop_drop, Nat.add_comm]
        rw [hd, List.take_append_drop]

theorem rangeMapShift (o w k : Nat) :
    (List.range (k + 1)).map (fun i => o + i * w) =
      o :: (List.range k).map (fun i => (o + w) + i * w) := by
  rw [List.range_succ_eq_map]
  simp only [List.map_cons, List.map_map, Nat.zero_mul, Nat.add_zero]
  congr 1
  apply List.map_congr_left
  intro i _
  simp only [Function.comp_apply, Nat.succ_eq_add_one]
  ring

theorem fetchGo_snd (m : List DataEntry) :
    ∀ (fuel o : Nat), m.length ≤ o + fuel * batchSize →
      (fetchGo m fuel o).2 =
        (List.range ((m.length - o) / batchSize + 1)).map (fun i => o + i * batchSize) := by
  intro fuel
  induction fuel with
  | zero =>
    intro o h
    simp only [Nat.zero_mul, Nat.add_zero] at h
    have hz : m.length - o = 0 := by omega
    simp [fetchGo, hz, List.range_succ]
  | succ fuel ih =>
    intro o h
    rw [fetchGo]
    by_cases h0 : ((m.drop o).take batchSize).length = 0
    · rw [if_pos h0]
      have hz : m.length - o = 0 := by
        simp only [List.length_take, List.length_drop, batchSize] at h0
        omega
      simp [hz, List.range_succ]
    · rw [if_neg h0]
      by_cases hlt : ((m.drop o).take batchSize).length < batchSize
      · rw [if_pos hlt]
        have hdiv : (m.length - o) / batchSize = 0 := by
          apply Nat.div_eq_of_lt
          simp only [List.length_take, List.length_drop] at hlt
          omega
        simp [hdiv, List.range_succ]
      · rw [if_neg hlt]
        have hge : batchSize ≤ m.length - o := by
          simp only [List.length_take, List.length_drop] at h0 hlt
          omega
        have hrec : m.length ≤ (o + batchSize) + fuel * batchSize := by
          have : o + (fuel + 1) * batchSize = (o + batchSize) + fuel * batchSize := by ring
          omega
        simp only [ih (o + batchSize) hrec]
        have hdiv : (m.length - o) / batchSize = (m.length - (o + batchSize)) / batchSize + 1 := by
          have hb : batchSize = 20000 := rfl
          rw [hb] at hge ⊢
          omega
        rw [hdiv]
        conv_rhs => rw [rangeMapShift]

theorem fetchFuelSufficient (m : List DataEntry) (o : Nat) :
    m.length ≤ o + (m.length + 1) * batchSize := by
  have hb : batchSize = 20000 := rfl
  nlinarith [Nat.zero_le o, Nat.zero_le m.length]

theorem fetchLoop_fst (m : List DataEntry) (o : Nat) :
    (fetchLoop m o).1 = List.drop o m :=
  fetchGo_fst m (m.length + 1) o (fetchFuelSufficient m o)

theorem fetchLoop_snd (m : List DataEntry) (o : Nat) :
    (fetchLoop m o).2 =
      (List.range ((m.length - o) / batchSize + 1)).map (fun i => o + i * batchSize) :=
  fetchGo_snd m (m.length + 1) o (fetchFuelSufficient m o)

theorem getEntries_data (table : List DataEntry) (opts : QueryOptions) :
    (getEntries table opts).data = matchingRows table opts := by
  simp [getEntries, fetchLoop_fst]

theorem collapseWs_ws_space :
    ∀ (l : List Char) (c : Char), c ∈ collapseWs l → isWsChar c = true → c = ' ' := by
  intro l
  induction l using collapseWs.induct with
  | case1 =>
    intro c hc _
    simp [collapseWs] at hc
  | case2 c0 hws0 =>
    intro c hc _
    rw [collapseWs, if_pos hws0] at hc
    simpa using hc
  | case3 c0 hws0 =>
    intro c hc hws
    rw [collapseWs, if_neg hws0] at hc
    simp at hc
    subst hc
    exact absurd hws (by simpa using hws0)
  | case4 c1 c2 r h ih =>
    intro c hc hws
    rw [collapseWs, if_pos h] at hc
    exact ih c hc hws
  | case5 c1 c2 r h ih =>
    intro c hc hws
    rw [collapseWs, if_neg h] at hc
    rcases List.mem_cons.mp hc with hc | hc
    · subst hc
      by_cases h1 : isWsChar c1 = true
      · simp [h1]
      · simp only [if_neg h1] at hws ⊢
        exact absurd hws h1
    · exact ih c hc hws

theorem collapseWs_cons_of_not_ws (c : Char) (r : List Char) (h : isWsChar c = false) :
    collapseWs (c :: r) = c :: collapseWs r := by
  cases r with
  | nil => simp [collapseWs, h]
  | cons c2 r2 =>
    rw [collapseWs]
    rw [if_neg (by simp [h]), if_neg (by simp [h])]

theorem collapseWs_chain :
    ∀ l : List Char,
      List.Chain' (fun a b => isWsChar a = false ∨ isWsChar b = false) (collapseWs l) := by
  intro l
  induction l using collapseWs.induct with
  | case1 => simp [collapseWs]
  | case2 c0 hws0 =>
    rw [collapseWs, if_pos hws0]
    exact List.chain'_singleton _
  | case3 c0 hws0 =>
    rw [collapseWs, if_neg hws0]
    exact List.chain'_singleton _
  | case4 c1 c2 r h ih =>
    rw [collapseWs, if_pos h]
    exact ih
  | case5 c1 c2 r h ih =>
    rw [collapseWs, if_neg h]
    rw [List.chain'_cons']
    refine ⟨?_, ih⟩
    intro y hy
    by_cases h1 : isWsChar c1 = true
    · have h2 : isWsChar c2 = false := by
        cases hc2 : isWsChar c2
        · rfl
        · exact absurd (by simp [h1, hc2]) h
      rw [collapseWs_cons_of_not_ws c2 r h2] at hy
      simp at hy
      subst hy
      exact Or.inr h2
    · left
      simp only [if_neg h1]
      simpa using h1

theorem collapseWs_fixed :
    ∀ l : List Char,
      List.Chain' (fun a b => isWsChar a = false ∨ isWsChar b = false) l →
      (∀ c ∈ l, isWsChar c = true → c = ' ') → collapseWs l = l := by
  intro l
  induction l using collapseWs.induct with
  | case1 =>
    intro _ _
    rfl
  | case2 c0 hws0 =>
    intro _ hmem
    rw [collapseWs, if_pos hws0, hmem c0 (by simp) hws0]
  | case3 c0 hws0 =>
    intro _ _
    rw [collapseWs, if_neg hws0]
  | case4 c1 c2 r h ih =>
    intro hch _
    rcases (List.chain'_cons.mp hch).1 with h1 | h2
    · exact absurd h (by simp [h1])
    · exact absurd h (by simp [h2])
  | case5 c1 c2 r h ih =>
    intro hch hmem
    rw [collapseWs, if_neg h]
    have htail : collapseWs (c2 :: r) = c2 :: r := by
      apply ih (List.chain'_cons.mp hch).2
      intro c hc hw
      exact hmem c (List.mem_cons_of_mem _ hc) hw
    rw [htail]
    by_cases h1 : isWsChar c1 = true
    · rw [if_pos h1, hmem c1 (by simp) h1]
    · rw [if_neg h1]

theorem dropLeadingWs_suffix (l : List Char) : dropLeadingWs l <:+ l := by
  induction l with
  | nil => exact List.suffix_refl _
  | cons c t ih =>
    rw [dropLeadingWs, List.dropWhile_cons]
    split
    · exact ih.trans (List.suffix_cons c t)
    · exact List.suffix_refl _

theorem dropTrailingWs_isPrefixOf (l : List Char) : dropTrailingWs l <+: l := by
  induction l with
  | nil => exact List.prefix_refl _
  | cons c t ih =>
    rw [dropTrailingWs]
    split
    · exact List.nil_prefix
    · obtain ⟨u, hu⟩ := ih
      exact ⟨u, by rw [List.cons_append, hu]⟩

theorem head?_dropLeadingWs :
    ∀ (l : List Char) (c : Char), (dropLeadingWs l).head? = some c → isWsChar c = false := by
  intro l
  induction l with
  | nil =>
    intro c hc
    simp [dropLeadingWs] at hc
  | cons c0 t ih =>
    intro c hc
    rw [dropLeadingWs, List.dropWhile_cons] at hc
    by_cases h0 : isWsChar c0 = true
    · rw [if_pos h0] at hc
      exact ih c hc
    · rw [if_neg h0] at hc
      simp at hc
      rw [← hc]
      simpa using h0

theorem head?_dropTrailingWs (l : List Char) :
    dropTrailingWs l = [] ∨ (dropTrailingWs l).head? = l.head? := by
  cases l with
  | nil => exact Or.inl rfl
  | cons c t =>
    rw [dropTrailingWs]
    split
    · exact Or.inl rfl
    · exact Or.inr rfl

theorem getLast?_dropTrailingWs :
    ∀ (l : List Char) (c : Char), (dropTrailingWs l).getLast? = some c → isWsChar c = false := by
  intro l
  induction l with
  | nil =>
    intro c hc
    simp [dropTrailingWs] at hc
  | cons c0 t ih =>
    intro c hc
    rw [dropTrailingWs] at hc
    split at hc
    · simp at hc
    · rename_i hcond
      cases ht : dropTrailingWs t with
      | nil =>
        rw [ht] at hc hcond
        simp at hc hcond
        rw [← hc]
        exact hcond
      | cons x u =>
        rw [ht] at hc
        rw [List.getLast?_cons_cons] at hc
        rw [← ht] at hc
        exact ih c hc

theorem dropLeadingWs_eq_self (l : List Char)
    (h : ∀ c, l.head? = some c → isWsChar c = false) : dropLeadingWs l = l := by
  cases l with
  | nil => rfl
  | cons c t =>
    rw [dropLeadingWs, List.dropWhile_cons, if_neg]
    simp [h c rfl]

theorem dropTrailingWs_eq_self :
    ∀ l : List Char, (∀ c, l.getLast? = some c → isWsChar c = false) →
      dropTrailingWs l = l := by
  intro l
  induction l with
  | nil => intro _; rfl
  | cons c0 t ih =>
    intro h
    rw [dropTrailingWs]
    cases t with
    | nil =>
      have hnw := h c0 (by simp)
      simp [dropTrailingWs, hnw]
    | cons x u =>
      have htail : dropTrailingWs (x :: u) = x :: u := by
        apply ih
        intro c hc
        apply h
        rw [List.getLast?_cons_cons]
        exact hc
      rw [htail, if_neg]
      simp

theorem jsNormalize_idem (s : String) : jsNormalize (jsNormalize s) = jsNormalize s := by
  unfold jsNormalize
  have hdata : ∀ l : List Char, (String.mk l).data = l := fun _ => rfl
  rw [hdata]
  set u := collapseWs s.data with hu
  set v := dropLeadingWs u with hv
  set t := dropTrailingWs v with ht
  have hchain_u := collapseWs_chain s.data
  rw [← hu] at hchain_u
  have hchain_v : List.Chain' (fun a b => isWsChar a = false ∨ isWsChar b = false) v :=
    hchain_u.suffix (dropLeadingWs_suffix u)
  have hchain_t : List.Chain' (fun a b => isWsChar a = false ∨ isWsChar b = false) t :=
    hchain_v.prefix (dropTrailingWs_isPrefixOf v)
  have hspace_t : ∀ c ∈ t, isWsChar c = true → c = ' ' := by
    intro c hc hw
    have hcv : c ∈ v := (dropTrailingWs_isPrefixOf v).subset hc
    have hcu : c ∈ u := (dropLeadingWs_suffix u).subset hcv
    exact collapseWs_ws_space s.data c (by rw [← hu] at *; exact hcu) hw
  have h1 : collapseWs t = t := collapseWs_fixed t hchain_t hspace_t
  have h2 : dropLeadingWs t = t := by
    apply dropLeadingWs_eq_self
    intro c hc
    rcases head?_dropTrailingWs v with hnil | hhead
    · rw [← ht] at hnil
      rw [hnil] at hc
      simp at hc
    · rw [← ht] at hhead
      rw [hhead] at hc
      exact head?_dropLeadingWs u c hc
  have h3 : dropTrailingWs t = t := by
    apply dropTrailingWs_eq_self
    intro c hc
    exact getLast?_dropTrailingWs v c (by rw [ht] at hc; exact hc)
  rw [h1, h2, h3]

theorem mem_upsert (m : List (String × Int)) (k : String) (v : Int)
    (q : String × Int) (hq : q ∈ upsert m k v) : q = (k, v) ∨ q ∈ m := by
  unfold upsert at hq
  split at hq
  · rcases List.mem_map.mp hq with ⟨p, hp, hfp⟩
    by_cases hk : p.1 = k
    · rw [if_pos hk] at hfp
      exact Or.inl hfp.symm
    · rw [if_neg hk] at hfp
      exact Or.inr (hfp ▸ hp)
  · rcases List.mem_append.mp hq with h | h
    · exact Or.inr h
    · simp at h
      exact Or.inl h

theorem buildTplnrMapFrom_mem :
    ∀ (rows : List (String × Option Int)) (acc : List (String × Int)),
      (∀ p ∈ acc, p.1 ≠ "" ∧ p.2 ≠ 0) →
      ∀ p ∈ buildTplnrMapFrom acc rows, p.1 ≠ "" ∧ p.2 ≠ 0 := by
  intro rows
  induction rows with
  | nil =>
    intro acc hacc p hp
    exact hacc p hp
  | cons p0 rest ih =>
    intro acc hacc p hp
    rw [buildTplnrMapFrom] at hp
    split at hp
    · split at hp
      · rename_i v _ hg
        apply ih _ ?_ p hp
        intro q hq
        rcases mem_upsert acc p0.1 v q hq with hq' | hq'
        · subst hq'
          simpa using hg
        · exact hacc q hq'
      · exact ih acc hacc p hp
    · exact ih acc hacc p hp

theorem buildTplnrMap_mem (rows : List (String × Option Int)) :
    ∀ p ∈ buildTplnrMap rows, p.1 ≠ "" ∧ p.2 ≠ 0 :=
  buildTplnrMapFrom_mem rows [] (by simp)

theorem buildTplnrMapFrom_source :
    ∀ (rows : List (String × Option Int)) (acc : List (String × Int)),
      ∀ p ∈ buildTplnrMapFrom acc rows, p ∈ acc ∨ (p.1, some p.2) ∈ rows := by
  intro rows
  induction rows with
  | nil =>
    intro acc p hp
    exact Or.inl hp
  | cons p0 rest ih =>
    intro acc p hp
    rw [buildTplnrMapFrom] at hp
    split at hp
    · split at hp
      · rename_i v hv hg
        rcases ih (upsert acc p0.1 v) p hp with h | h
        · rcases mem_upsert acc p0.1 v p h with h' | h'
          · subst h'
            apply Or.inr
            apply List.mem_cons.mpr
            left
            rw [← hv]
          · exact Or.inl h'
        · exact Or.inr (List.mem_cons_of_mem _ h)
      · rcases ih acc p hp with h | h
        · exact Or.inl h
        · exact Or.inr (List.mem_cons_of_mem _ h)
    · rcases ih acc p hp with h | h
      · exact Or.inl h
      · exact Or.inr (List.mem_cons_of_mem _ h)

theorem mapGet_mem (m : List (String × Int)) (k : String) (v : Int)
    (h : mapGet m k = some v) : (k, v) ∈ m := by
  unfold mapGet at h
  cases hf : m.find? (fun p => p.1 = k) with
  | none => rw [hf] at h; simp at h
  | some p =>
    rw [hf] at h
    simp at h
    have hpm : p ∈ m := List.mem_of_find?_eq_some hf
    have hpk : p.1 = k := by
      have := List.find?_some hf
      simpa using this
    have : (k, v) = p := by
      rw [← hpk, ← h]
    rw [this]
    exact hpm

theorem mapGet_buildTplnrMap_ne_zero (rows : List (String × Option Int)) (k : String) :
    mapGet (buildTplnrMap rows) k ≠ some 0 := by
  intro h
  have := (buildTplnrMap_mem rows (k, 0) (mapGet_mem _ k 0 h)).2
  simp at this

theorem mapGet_buildTplnrMap_empty_key (rows : List (String × Option Int)) :
    mapGet (buildTplnrMap rows) "" = none := by
  cases h : mapGet (buildTplnrMap rows) "" with
  | none => rfl
  | some v =>
    have := (buildTplnrMap_mem rows ("", v) (mapGet_mem _ "" v h)).1
    simp at this

theorem mapGet_buildTplnrMap_none (rows : List (String × Option Int)) (k : String)
    (h : ∀ e : Int, (k, some e) ∈ rows → e = 0) :
    mapGet (buildTplnrMap rows) k = none := by
  cases hg : mapGet (buildTplnrMap rows) k with
  | none => rfl
  | some v =>
    have hmem := mapGet_mem _ k v hg
    have hv := (buildTplnrMap_mem rows (k, v) hmem).2
    rcases buildTplnrMapFrom_source rows [] (k, v) hmem with hc | hc
    · simp at hc
    · exact absurd (h v hc) (by simpa using hv)

theorem validateAux_errors_nil_iff (header : List String) (m : List (String × Int)) :
    ∀ (ls : List String) (i : Nat),
      (validateAux header m ls i).1 = [] ↔
        ∀ l ∈ ls, rowErrorMsg header (lineValues l) m = none := by
  intro ls
  induction ls with
  | nil =>
    intro i
    simp [validateAux]
  | cons line rest ih =>
    intro i
    rw [validateAux]
    cases hmsg : rowErrorMsg header (lineValues line) m with
    | some msg =>
      simp only [hmsg]
      constructor
      · intro h
        exact absurd h (by simp)
      · intro h
        exact absurd (h line (by simp)) (by simp [hmsg])
    | none =>
      simp only [hmsg]
      rw [ih (i + 1)]
      constructor
      · intro h l hl
        rcases List.mem_cons.mp hl with hl | hl
        · rw [hl]
          exact hmsg
        · exact h l hl
      · intro h l hl
        exact h l (List.mem_cons_of_mem _ hl)

theorem validateAux_errors_length (header : List String) (m : List (String × Int)) :
    ∀ (ls : List String) (i : Nat),
      (validateAux header m ls i).1.length =
        ls.countP (fun l => (rowErrorMsg header (lineValues l) m).isSome) := by
  intro ls
  induction ls with
  | nil =>
    intro i
    simp [validateAux]
  | cons line rest ih =>
    intro i
    rw [validateAux, List.countP_cons]
    cases hmsg : rowErrorMsg header (lineValues line) m with
    | some msg =>
      simp [hmsg, ih (i + 1)]
    | none =>
      simp [hmsg, ih (i + 1)]

theorem validateAux_valid_vals (header : List String) (m : List (String × Int)) :
    ∀ (ls : List String) (i : Nat),
      (∀ l ∈ ls, rowErrorMsg header (lineValues l) m = none) →
      (validateAux header m ls i).2 = ls.map lineValues := by
  intro ls
  induction ls with
  | nil =>
    intro i _
    simp [validateAux]
  | cons line rest ih =>
    intro i h
    rw [validateAux]
    have hmsg : rowErrorMsg header (lineValues line) m = none := h line (by simp)
    simp only [hmsg, List.map_cons]
    rw [ih (i + 1) (fun l hl => h l (List.mem_cons_of_mem _ hl))]

theorem buildRecords_length (header : List String) (m : List (String × Int))
    (user now : String) :
    ∀ (vals : List (List String)) (n : Nat),
      (buildRecords header m user now vals n).length = vals.length := by
  intro vals
  induction vals with
  | nil => intro n; rfl
  | cons v rest ih =>
    intro n
    rw [buildRecords]
    simp [ih (n + 1)]

theorem buildRecords_id_bounds (header : List String) (m : List (String × Int))
    (user now : String) :
    ∀ (vals : List (List String)) (n : Nat) (rec : DataEntry),
      rec ∈ buildRecords header m user now vals n →
      n ≤ rec.id ∧ rec.id < n + vals.length := by
  intro vals
  induction vals with
  | nil =>
    intro n rec h
    simp [buildRecords] at h
  | cons v rest ih =>
    intro n rec h
    rw [buildRecords] at h
    rcases List.mem_cons.mp h with h | h
    · rw [h]
      simp [rowToEntry]
    · have := ih (n + 1) rec h
      constructor
      · omega
      · simp only [List.length_cons]
        omega

theorem buildRecords_mem_not_deleted (header : List String) (m : List (String × Int))
    (user now : String) :
    ∀ (vals : List (List String)) (n : Nat) (rec : DataEntry),
      rec ∈ buildRecords header m user now vals n → rec.is_deleted = false := by
  intro vals
  induction vals with
  | nil =>
    intro n rec h
    simp [buildRecords] at h
  | cons v rest ih =>
    intro n rec h
    rw [buildRecords] at h
    rcases List.mem_cons.mp h with h | h
    · subst h
      simp [rowToEntry]
    · exact ih (n + 1) rec h

theorem buildRecords_filter_self (header : List String) (m : List (String × Int))
    (user now : String) :
    ∀ (vals : List (List String)) (n : Nat) (rec : DataEntry),
      rec ∈ buildRecords header m user now vals n →
      ∃ tl, (buildRecords header m user now vals n).filter
          (fun r => r.id = rec.id && !r.is_deleted) = rec :: tl := by
  intro vals
  induction vals with
  | nil =>
    intro n rec h
    simp [buildRecords] at h
  | cons v rest ih =>
    intro n rec h
    rw [buildRecords] at h
    rw [buildRecords, List.filter_cons]
    rcases List.mem_cons.mp h with h | h
    · subst h
      rw [if_pos (by simp [rowToEntry])]
      exact ⟨_, rfl⟩
    · have hgt := (buildRecords_id_bounds header m user now rest (n + 1) rec h).1
      have hne : (rowToEntry header v m n user now).id ≠ rec.id := by
        simp only [rowToEntry]
        omega
      rw [if_neg (by simp [hne])]
      exact ih (n + 1) rec h

theorem getEntry_append_fresh (t recs : List DataEntry) (rec : DataEntry)
    (hfresh : ∀ r ∈ t, r.id ≠ rec.id)
    (hfind : ∃ tl, recs.filter (fun r => r.id = rec.id && !r.is_deleted) = rec :: tl) :
    getEntry (t ++ recs) rec.id = Except.ok rec := by
  unfold getEntry
  rw [List.filter_append]
  have ht : t.filter (fun r => r.id = rec.id && !r.is_deleted) = [] := by
    rw [List.filter_eq_nil_iff]
    intro r hr
    simp [hfresh r hr]
  obtain ⟨tl, htl⟩ := hfind
  rw [ht, htl]
  rfl

/-- C3: batched fetch completeness and termination.  For every static
table state whose matching result set has N rows, the batched fetch loop
of getEntries issues windows of batchSize rows at offsets 0, batchSize,
2 * batchSize and so on, stops at the first window that comes back
shorter than the window size or empty, and accumulates exactly the N
matching records with no duplicates and no gaps, for N in the set 0, 1,
batchSize - 1, batchSize, batchSize + 1, 2 * batchSize. -/
theorem C3_batched_fetch_completeness (matching : List DataEntry) (N : Nat)
    (hlen : matching.length = N)
    (hN : N = 0 ∨ N = 1 ∨ N = batchSize - 1 ∨ N = batchSize ∨
      N = batchSize + 1 ∨ N = 2 * batchSize) :
    (fetchLoop matching 0).1 = matching ∧
    (fetchLoop matching 0).1.length = N ∧
    (fetchLoop matching 0).2 = (List.range (N / batchSize + 1)).map (fun i => i * batchSize) := by
  have h1 : (fetchLoop matching 0).1 = matching := by
    rw [fetchLoop_fst, List.drop_zero]
  refine ⟨h1, by rw [h1, hlen], ?_⟩
  rw [fetchLoop_snd, hlen]
  simp

/-- C3 witness: a one-row result set is fetched completely in one
queried window at offset zero. -/
theorem C3_batched_fetch_completeness_witness :
    (([sampleEntry] : List DataEntry).length = 1 ∧
      ((1 : Nat) = 0 ∨ 1 = 1 ∨ 1 = batchSize - 1 ∨ 1 = batchSize ∨
        1 = batchSize + 1 ∨ 1 = 2 * batchSize)) ∧
    ((fetchLoop [sampleEntry] 0).1 = [sampleEntry] ∧
      (fetchLoop [sampleEntry] 0).1.length = 1 ∧
      (fetchLoop [sampleEntry] 0).2 =
        (List.range (1 / batchSize + 1)).map (fun i => i * batchSize)) :=
  ⟨⟨rfl, by decide⟩,
    C3_batched_fetch_completeness [sampleEntry] 1 rfl (by decide)⟩

/-- C9: getEntries returns the complete matching result set in one call
regardless of the page and pageSize options — the data array is never
windowed by page or pageSize, and the echoed total always equals the
length of the returned data. -/
theorem C9_getEntries_ignores_paging (table : List DataEntry)
    (p1 p2 ps1 ps2 : Option Nat) (sb so : Option String)
    (f : List (String × String)) (q : Option String) :
    (getEntries table ⟨p1, ps1, sb, so, f, q⟩).data =
      (getEntries table ⟨p2, ps2, sb, so, f, q⟩).data ∧
    (getEntries table ⟨p1, ps1, sb, so, f, q⟩).data =
      matchingRows table ⟨p1, ps1, sb, so, f, q⟩ ∧
    (getEntries table ⟨p1, ps1, sb, so, f, q⟩).total =
      (getEntries table ⟨p1, ps1, sb, so, f, q⟩).data.length := by
  refine ⟨?_, getEntries_data table _, rfl⟩
  rw [getEntries_data, getEntries_data]
  rfl

/-- C7: soft-delete exclusion.  deleteEntry only flips is_deleted to
true and stamps change_user and change_date on the targeted rows — the
table keeps its length and every untargeted row is untouched, so no
physical delete happens; afterwards getEntry on the id fails with the
not-found error and the id never appears in getEntries output, because
both read paths filter on is_deleted = false. -/
theorem C7_soft_delete_exclusion (table : List DataEntry) (idv : Nat)
    (userEmail : Option String) (now : String) :
    (deleteEntry table idv userEmail now).length = table.length ∧
    List.Forall₂ (fun r r' =>
        r'.id = r.id ∧
        (r.id ≠ idv → r' = r) ∧
        (r.id = idv →
          r' = { r with is_deleted := true, change_date := now, change_user := jsOrStr userEmail "system" }))
      table (deleteEntry table idv userEmail now) ∧
    getEntry (deleteEntry table idv userEmail now) idv = Except.error DbError.notFound ∧
    ∀ (opts : QueryOptions) (r' : DataEntry),
      r' ∈ (getEntries (deleteEntry table idv userEmail now) opts).data → r'.id ≠ idv := by
  have hmap : ∀ r' ∈ deleteEntry table idv userEmail now,
      (r'.id = idv → r'.is_deleted = true) := by
    intro r' hr'
    unfold deleteEntry at hr'
    rcases List.mem_map.mp hr' with ⟨r, _, hfr⟩
    intro hid
    by_cases h : r.id = idv
    · rw [if_pos h] at hfr
      rw [← hfr]
    · rw [if_neg h] at hfr
      rw [← hfr] at hid
      exact absurd hid h
  refine ⟨?_, ?_, ?_, ?_⟩
  · unfold deleteEntry
    exact List.length_map _ _
  · unfold deleteEntry
    rw [List.forall₂_map_right_iff]
    rw [List.forall₂_same]
    intro r _
    by_cases h : r.id = idv
    · rw [if_pos h]
      refine ⟨rfl, fun hne => absurd h hne, fun _ => rfl⟩
    · rw [if_neg h]
      exact ⟨rfl, fun _ => rfl, fun heq => absurd heq h⟩
  · unfold getEntry
    have hnil : (deleteEntry table idv userEmail now).filter
        (fun r => r.id = idv && !r.is_deleted) = [] := by
      rw [List.filter_eq_nil_iff]
      intro r' hr'
      by_cases h : r'.id = idv
      · simp [hmap r' hr' h]
      · simp [h]
    rw [hnil]
  · intro opts r' hr'
    rw [getEntries_data] at hr'
    unfold matchingRows at hr'
    have hmem := List.mem_of_mem_filter hr'
    have hpred := List.of_mem_filter hr'
    intro hid
    have := hmap r' hmem hid
    simp [this] at hpred

/-- C7 witness: deleting the sample record by its id makes it
unreadable through getEntry while the table keeps one (soft-deleted)
row. -/
theorem C7_soft_delete_exclusion_witness :
    (deleteEntry [sampleEntry] 1 none "t1").length = 1 ∧
    getEntry (deleteEntry [sampleEntry] 1 none "t1") 1 = Except.error DbError.notFound :=
  ⟨(C7_soft_delete_exclusion [sampleEntry] 1 none "t1").1,
    (C7_soft_delete_exclusion [sampleEntry] 1 none "t1").2.2.1⟩

/-- C6: whitespace-invariant key resolution.  The resolver collapses
whitespace runs and trims before comparison, identically on input keys
and on the lookup source's keys: resolving the doubled-space or padded
spellings of a key gives exactly the same result as resolving the
canonical spelling, re-normalizing already normalized inputs or source
keys changes nothing, and the empty input set yields an empty map with
no query issued. -/
theorem C6_whitespace_invariant_resolution :
    (∀ src : List LookupRow,
        lookupEntHidFromTplnr src ["A  B"] = lookupEntHidFromTplnr src ["A B"] ∧
        lookupEntHidFromTplnr src [" A B "] = lookupEntHidFromTplnr src ["A B"] ∧
        lookupEntHidFromTplnr src [] = ([], [])) ∧
    (∀ (src : List LookupRow) (keys : List String),
        lookupEntHidFromTplnr src (keys.map jsNormalize) = lookupEntHidFromTplnr src keys) ∧
    (∀ (src : List LookupRow) (keys : List String),
        lookupEntHidFromTplnr (src.map fun r => { r with entcode := jsNormalize r.entcode }) keys =
          lookupEntHidFromTplnr src keys) := by
  refine ⟨?_, ?_, ?_⟩
  · intro src
    refine ⟨?_, ?_, rfl⟩
    · unfold lookupEntHidFromTplnr
      rw [if_neg (by simp), if_neg (by simp)]
      rw [show List.map jsNormalize ["A  B"] = List.map jsNormalize ["A B"] from by decide]
    · unfold lookupEntHidFromTplnr
      rw [if_neg (by simp), if_neg (by simp)]
      rw [show List.map jsNormalize [" A B "] = List.map jsNormalize ["A B"] from by decide]
  · intro src keys
    unfold lookupEntHidFromTplnr
    cases keys with
    | nil => rfl
    | cons k ks =>
      rw [if_neg (by simp), if_neg (by simp)]
      rw [List.map_map]
      rw [show jsNormalize ∘ jsNormalize = jsNormalize from funext jsNormalize_idem]
  · intro src keys
    unfold lookupEntHidFromTplnr
    cases keys with
    | nil => rfl
    | cons k ks =>
      rw [if_neg (by simp), if_neg (by simp)]
      simp only [runLookup, List.filterMap_map, Function.comp_def, jsNormalize_idem]

theorem rowErrorMsg_unresolved (header vals : List String) (m : List (String × Int))
    (htp : truthyField header vals "tplnr" = true)
    (hnone : mapGet m (jsNormalize ((rawField header vals "tplnr").getD "")) = none) :
    rowErrorMsg header vals m =
      some ("No ent_hid found for tplnr: " ++
        jsNormalize ((rawField header vals "tplnr").getD "")) := by
  unfold rowErrorMsg
  rw [if_pos htp]
  simp only [hnone]

/-- C10: falsy surrogate keys are dropped.  Every entry of the map
returned by lookupEntHidFromTplnr has a non-empty key and a non-zero
surrogate key (rows with a null or zero EntHID, or an empty key, are
omitted), a map read can never yield zero, and in bulkImport a data row
whose tplnr only resolves to surrogate key zero in the lookup source is
recorded as invalid with the unresolved-key message rather than imported
with ent_hid zero. -/
theorem C10_falsy_surrogate_keys_dropped :
    (∀ (src : List LookupRow) (keys : List String) (p : String × Int),
        p ∈ (lookupEntHidFromTplnr src keys).1 → p.1 ≠ "" ∧ p.2 ≠ 0) ∧
    (∀ (src : List LookupRow) (keys : List String) (k : String),
        mapGet (lookupEntHidFromTplnr src keys).1 k ≠ some 0) ∧
    (∀ (s : DBState) (csv line : String),
        truthyField (csvHeader csv) (lineValues line) "tplnr" = true →
        (∀ e : Int,
            (jsNormalize ((rawField (csvHeader csv) (lineValues line) "tplnr").getD ""), some e) ∈
              runLookup s.lookupSrc (collectTplnr (csvHeader csv) ((csvLines csv).drop 1)) →
            e = 0) →
        rowErrorMsg (csvHeader csv) (lineValues line) (importKeyMap s.lookupSrc csv) =
          some ("No ent_hid found for tplnr: " ++
            jsNormalize ((rawField (csvHeader csv) (lineValues line) "tplnr").getD ""))) := by
  refine ⟨?_, ?_, ?_⟩
  · intro src keys p hp
    unfold lookupEntHidFromTplnr at hp
    split at hp
    · simp at hp
    · exact buildTplnrMap_mem _ p hp
  · intro src keys k
    unfold lookupEntHidFromTplnr
    split
    · simp [mapGet]
    · exact mapGet_buildTplnrMap_ne_zero _ k
  · intro s csv line htp hzero
    have hnone : mapGet (importKeyMap s.lookupSrc csv)
        (jsNormalize ((rawField (csvHeader csv) (lineValues line) "tplnr").getD "")) = none := by
      simp only [importKeyMap, importKeyMapQ]
      split
      · simp [mapGet]
      · exact mapGet_buildTplnrMap_none _ _ hzero
    exact rowErrorMsg_unresolved _ _ _ htp hnone

/-- C10 witness: a lookup row carrying surrogate key zero is dropped
from the resolver map, a well-formed row is kept with its non-empty key
and non-zero value, and a CSV data row whose tplnr resolves only to zero
is recorded with the unresolved-key message. -/
theorem C10_falsy_surrogate_keys_dropped_witness :
    ((("A", (5 : Int)) ∈
        (lookupEntHidFromTplnr [⟨"A", some 5⟩, ⟨"Z", some 0⟩] ["A", "Z"]).1) ∧
      (("A", (5 : Int)).1 ≠ "" ∧ ("A", (5 : Int)).2 ≠ 0)) ∧
    mapGet (lookupEntHidFromTplnr [⟨"A", some 5⟩, ⟨"Z", some 0⟩] ["A", "Z"]).1 "Z" ≠ some 0 ∧
    rowErrorMsg (csvHeader "scada_tag,tplnr\nS1,Z")
        (lineValues "S1,Z")
        (importKeyMap [⟨"A", some 5⟩, ⟨"Z", some 0⟩] "scada_tag,tplnr\nS1,Z") =
      some ("No ent_hid found for tplnr: " ++
        jsNormalize ((rawField (csvHeader "scada_tag,tplnr\nS1,Z") (lineValues "S1,Z")
          "tplnr").getD "")) := by
  refine ⟨⟨by decide, ?_⟩, ?_, ?_⟩
  · exact C10_falsy_surrogate_keys_dropped.1 [⟨"A", some 5⟩, ⟨"Z", some 0⟩] ["A", "Z"]
      ("A", (5 : Int)) (by decide)
  · exact C10_falsy_surrogate_keys_dropped.2.1 [⟨"A", some 5⟩, ⟨"Z", some 0⟩] ["A", "Z"] "Z"
  · apply C10_falsy_surrogate_keys_dropped.2.2
      ⟨[], [⟨"A", some 5⟩, ⟨"Z", some 0⟩], 0⟩ "scada_tag,tplnr\nS1,Z" "S1,Z" (by decide)
    intro e he
    have hv : runLookup ([⟨"A", some 5⟩, ⟨"Z", some 0⟩] : List LookupRow)
        (collectTplnr (csvHeader "scada_tag,tplnr\nS1,Z")
          ((csvLines "scada_tag,tplnr\nS1,Z").drop 1)) = [("Z", some 0)] := by decide
    rw [hv] at he
    have hkey : jsNormalize ((rawField (csvHeader "scada_tag,tplnr\nS1,Z")
        (lineValues "S1,Z") "tplnr").getD "") = "Z" := by decide
    rw [hkey] at he
    simp at he
    exact he

set_option maxRecDepth 100000 in
/-- C4 counterexample: the claim that a non-parsing conversion_factor is
persisted as zero is false on the code.  At a concrete import whose
conversion_factor cell does not parse as a number, the row passes
validation and the single committed INSERT carries conversion_factor
one, because the commit step coerces the zero stored during validation
through an or-with-default-one interpolation. -/
theorem C4_persisted_zero_counterexample :
    jsParseFloat "abc" = none ∧
    (bulkImport ⟨[], [⟨"T-100", some 42⟩], 7⟩
        "scada_tag,pi_tag,product_type,tag_type,aggregation_type,tplnr,conversion_factor\nS1,P1,Gas,Flow,SUM,T-100,abc"
        none "t").2.2 =
      [Query.lookupQ ["T-100"],
        Query.insertQ
          [{ id := 7
           , scada_tag := "S1"
           , pi_tag := "P1"
           , product_type := "Gas"
           , tag_type := "Flow"
           , aggregation_type := "SUM"
           , conversion_factor := 1
           , ent_hid := 42
           , test_site := ""
           , api10 := ""
           , uom := ""
           , meter_id := ""
           , is_active := true
           , is_deleted := false
           , create_user := "system"
           , create_date := "t"
           , change_user := "system"
           , change_date := "t" }]] ∧
    (1 : ℚ) ≠ 0 := by
  refine ⟨by decide, by decide, by decide⟩

/-- C4 (amended): tolerant numeric coercion.  A bulk-import data row
whose conversion_factor cell is absent or does not parse as a number is
not rejected for that reason — when its tplnr resolves and the required
fields are present it validates — and the value persisted for
conversion_factor in the committed INSERT is one (the stored
validation-phase default of zero is coerced to one when the INSERT row
is built), not zero. -/
theorem C4_tolerant_numeric_coercion (header vals : List String)
    (m : List (String × Int)) (idv : Nat) (user now : String)
    (hfail : (rawField header vals "conversion_factor").bind jsParseFloat = none)
    (htp : truthyField header vals "tplnr" = true)
    (hres : ∃ e : Int,
      mapGet m (jsNormalize ((rawField header vals "tplnr").getD "")) = some e ∧ e ≠ 0)
    (hreq : firstRequiredError header vals = none) :
    rowErrorMsg header vals m = none ∧
    (rowToEntry header vals m idv user now).conversion_factor = 1 := by
  obtain ⟨e, he, hez⟩ := hres
  constructor
  · unfold rowErrorMsg
    rw [if_pos htp]
    simp only [he]
    rw [if_neg hez]
    exact hreq
  · show persistedConv header vals = 1
    unfold persistedConv storedConv
    cases hidx : lastIdxOf header "conversion_factor" with
    | none => simp
    | some i =>
      have hget : (vals.get? i).bind jsParseFloat = none := by
        unfold rawField at hfail
        rw [hidx] at hfail
        simpa using hfail
      rw [List.get?_eq_getElem?] at hget
      simp [hget]

/-- C4 witness: a concrete row with required fields present, a resolved
tplnr and a non-parsing conversion_factor cell validates and is built
with conversion_factor one. -/
theorem C4_tolerant_numeric_coercion_witness :
    ((rawField (lineValues "scada_tag,pi_tag,product_type,tag_type,aggregation_type,tplnr,conversion_factor")
        (lineValues "S1,P1,Gas,Flow,SUM,T-100,abc") "conversion_factor").bind jsParseFloat = none ∧
      truthyField (lineValues "scada_tag,pi_tag,product_type,tag_type,aggregation_type,tplnr,conversion_factor")
        (lineValues "S1,P1,Gas,Flow,SUM,T-100,abc") "tplnr" = true ∧
      firstRequiredError (lineValues "scada_tag,pi_tag,product_type,tag_type,aggregation_type,tplnr,conversion_factor")
        (lineValues "S1,P1,Gas,Flow,SUM,T-100,abc") = none) ∧
    (rowErrorMsg (lineValues "scada_tag,pi_tag,product_type,tag_type,aggregation_type,tplnr,conversion_factor")
        (lineValues "S1,P1,Gas,Flow,SUM,T-100,abc") [("T-100", 42)] = none ∧
      (rowToEntry (lineValues "scada_tag,pi_tag,product_type,tag_type,aggregation_type,tplnr,conversion_factor")
        (lineValues "S1,P1,Gas,Flow,SUM,T-100,abc") [("T-100", 42)] 7 "system"
        "t").conversion_factor = 1) := by
  refine ⟨⟨by decide, by decide, by decide⟩, ?_⟩
  exact C4_tolerant_numeric_coercion _ _ [("T-100", 42)] 7 "system" "t"
    (by decide) (by decide) ⟨42, by decide, by decide⟩ (by decide)

set_option maxRecDepth 100000 in
/-- C5: behaviour at the boundary the claim describes.  An input with no
non-blank lines at all fails with the empty-input error and issues no
query, but a header-only input — no data lines remain beyond the header
— is not rejected with the empty-input error: the pipeline runs to the
commit phase and issues an INSERT statement with zero value rows (whose
VALUES-less SQL text the real warehouse rejects as malformed), so a
query is issued against the warehouse. -/
theorem C5_header_only_not_empty_input :
    bulkImport ⟨[], [], 0⟩ "" none "t" =
      (Except.error ImportFailure.emptyInput, ⟨[], [], 0⟩, []) ∧
    (csvLines "scada_tag,pi_tag,product_type,tag_type,aggregation_type,tplnr").drop 1 = [] ∧
    (bulkImport ⟨[], [], 0⟩ "scada_tag,pi_tag,product_type,tag_type,aggregation_type,tplnr"
        none "t").1 ≠ Except.error ImportFailure.emptyInput ∧
    (bulkImport ⟨[], [], 0⟩ "scada_tag,pi_tag,product_type,tag_type,aggregation_type,tplnr"
        none "t").2.2 = [Query.insertQ []] := by
  refine ⟨by decide, by decide, by decide, by decide⟩

/-- C1: all-or-nothing import.  For every CSV input with at least one
data row failing validation (missing required field or unresolved
tplnr), bulkImport issues no INSERT statement, returns an import result
with zero successful imports and with failed imports equal to the number
of invalid rows, leaves the warehouse state untouched, and no new
records become observable through getEntries. -/
theorem C1_all_or_nothing_import (s : DBState) (csv : String)
    (userEmail : Option String) (now : String)
    (hne : csvLines csv ≠ [])
    (hinv : ∃ line ∈ (csvLines csv).drop 1,
        rowErrorMsg (csvHeader csv) (lineValues line) (importKeyMap s.lookupSrc csv) ≠ none) :
    (∃ res : CSVImportResult,
        (bulkImport s csv userEmail now).1 = Except.ok res ∧
        res.successfulImports = 0 ∧
        res.failedImports = ((csvLines csv).drop 1).countP
          (fun l => (rowErrorMsg (csvHeader csv) (lineValues l)
            (importKeyMap s.lookupSrc csv)).isSome) ∧
        0 < res.failedImports) ∧
    (∀ q ∈ (bulkImport s csv userEmail now).2.2, q.isInsert = false) ∧
    (bulkImport s csv userEmail now).2.1 = s ∧
    (∀ opts : QueryOptions,
        getEntries (bulkImport s csv userEmail now).2.1.table opts =
          getEntries s.table opts) := by
  have herr : (validateAux (csvHeader csv) (importKeyMap s.lookupSrc csv)
      ((csvLines csv).drop 1) 1).1 ≠ [] := by
    rw [Ne, validateAux_errors_nil_iff]
    intro hall
    obtain ⟨l, hl, hbad⟩ := hinv
    exact hbad (hall l hl)
  simp only [importKeyMap] at herr
  have hred : bulkImport s csv userEmail now =
      (Except.ok
        { totalRows := (csvLines csv).length - 1
        , successfulImports := 0
        , failedImports := (validateAux (csvHeader csv) (importKeyMapQ s.lookupSrc csv).1
            ((csvLines csv).drop 1) 1).1.length
        , errors := (validateAux (csvHeader csv) (importKeyMapQ s.lookupSrc csv).1
            ((csvLines csv).drop 1) 1).1
        , importId := "import-" ++ now
        , timestamp := now },
       s, (importKeyMapQ s.lookupSrc csv).2) := by
    simp only [bulkImport]
    rw [if_neg hne, if_neg herr]
  refine ⟨?_, ?_, ?_, ?_⟩
  · refine ⟨_, by rw [hred], rfl, ?_, ?_⟩
    · simp only [importKeyMap]
      exact validateAux_errors_length (csvHeader csv) _ ((csvLines csv).drop 1) 1
    · simp only [validateAux_errors_length]
      rw [List.countP_pos]
      obtain ⟨l, hl, hbad⟩ := hinv
      refine ⟨l, hl, ?_⟩
      simp only [importKeyMap] at hbad
      rw [Option.isSome_iff_ne_none]
      simpa using hbad
  · intro q hq
    rw [hred] at hq
    simp only at hq
    by_cases hk : collectTplnr (csvHeader csv) ((csvLines csv).drop 1) = []
    · simp only [importKeyMapQ, if_pos hk] at hq
      simp at hq
    · simp only [importKeyMapQ, if_neg hk] at hq
      simp at hq
      rw [hq]
      rfl
  · rw [hred]
  · intro opts
    rw [hred]

theorem buildRecords_ids_nodup (header : List String) (m : List (String × Int))
    (user now : String) :
    ∀ (vals : List (List String)) (n : Nat),
      ((buildRecords header m user now vals n).map fun r => r.id).Nodup := by
  intro vals
  induction vals with
  | nil =>
    intro n
    simp [buildRecords]
  | cons v rest ih =>
    intro n
    rw [buildRecords]
    simp only [List.map_cons, List.nodup_cons]
    refine ⟨?_, ih (n + 1)⟩
    intro hmem
    rcases List.mem_map.mp hmem with ⟨rec, hrec, hid⟩
    have hb := (buildRecords_id_bounds header m user now rest (n + 1) rec hrec).1
    simp only [rowToEntry] at hid
    omega

/-- C2: full-batch import.  For every CSV input with at least one data
row in which every data row passes validation, bulkImport submits
exactly one multi-row INSERT covering all rows, each row receiving a
freshly generated identifier at commit time (consecutive supply values,
pairwise distinct and distinct from every existing id), returns an
ImportResult whose successful count equals the total row count with
zero failures and an empty error list, and each imported row is
afterwards retrievable by its generated identifier. -/
theorem C2_full_batch_import (s : DBState) (csv : String)
    (userEmail : Option String) (now : String)
    (hne : csvLines csv ≠ [])
    (hdata : (csvLines csv).drop 1 ≠ [])
    (hval : ∀ line ∈ (csvLines csv).drop 1,
        rowErrorMsg (csvHeader csv) (lineValues line) (importKeyMap s.lookupSrc csv) = none)
    (hids : ∀ r ∈ s.table, r.id < s.nextId) :
    (∃ res : CSVImportResult,
        (bulkImport s csv userEmail now).1 = Except.ok res ∧
        res.totalRows = (csvLines csv).length - 1 ∧
        res.successfulImports = res.totalRows ∧
        res.failedImports = 0 ∧ res.errors = []) ∧
    (∃ recs : List DataEntry,
        ((bulkImport s csv userEmail now).2.2).filter Query.isInsert = [Query.insertQ recs] ∧
        recs.length = (csvLines csv).length - 1 ∧
        (bulkImport s csv userEmail now).2.1.table = s.table ++ recs ∧
        (∀ rec ∈ recs, s.nextId ≤ rec.id ∧ rec.id < s.nextId + recs.length) ∧
        (recs.map fun r => r.id).Nodup ∧
        (∀ rec ∈ recs, ∀ old ∈ s.table, old.id ≠ rec.id) ∧
        (∀ rec ∈ recs,
          getEntry (bulkImport s csv userEmail now).2.1.table rec.id = Except.ok rec)) := by
  have hallvalid : (validateAux (csvHeader csv) (importKeyMapQ s.lookupSrc csv).1
      ((csvLines csv).drop 1) 1).1 = [] := by
    have := (validateAux_errors_nil_iff (csvHeader csv) (importKeyMap s.lookupSrc csv)
      ((csvLines csv).drop 1) 1).mpr hval
    simpa [importKeyMap] using this
  have hvals : (validateAux (csvHeader csv) (importKeyMapQ s.lookupSrc csv).1
      ((csvLines csv).drop 1) 1).2 = ((csvLines csv).drop 1).map lineValues := by
    have := validateAux_valid_vals (csvHeader csv) (importKeyMap s.lookupSrc csv)
      ((csvLines csv).drop 1) 1 hval
    simpa [importKeyMap] using this
  have hred : bulkImport s csv userEmail now =
      (Except.ok
        { totalRows := (csvLines csv).length - 1
        , successfulImports := (validateAux (csvHeader csv) (importKeyMapQ s.lookupSrc csv).1
            ((csvLines csv).drop 1) 1).2.length
        , failedImports := 0
        , errors := []
        , importId := "import-" ++ now
        , timestamp := now },
       { s with
          table := s.table ++ buildRecords (csvHeader csv) (importKeyMapQ s.lookupSrc csv).1
            (jsOrStr userEmail "system") now (validateAux (csvHeader csv)
              (importKeyMapQ s.lookupSrc csv).1 ((csvLines csv).drop 1) 1).2 s.nextId
          nextId := s.nextId + (buildRecords (csvHeader csv) (importKeyMapQ s.lookupSrc csv).1
            (jsOrStr userEmail "system") now (validateAux (csvHeader csv)
              (importKeyMapQ s.lookupSrc csv).1 ((csvLines csv).drop 1) 1).2 s.nextId).length },
       (importKeyMapQ s.lookupSrc csv).2 ++
         [Query.insertQ (buildRecords (csvHeader csv) (importKeyMapQ s.lookupSrc csv).1
            (jsOrStr userEmail "system") now (validateAux (csvHeader csv)
              (importKeyMapQ s.lookupSrc csv).1 ((csvLines csv).drop 1) 1).2 s.nextId)]) := by
    simp only [bulkImport]
    rw [if_neg hne, if_pos hallvalid]
  have hlenvals : (validateAux (csvHeader csv) (importKeyMapQ s.lookupSrc csv).1
      ((csvLines csv).drop 1) 1).2.length = (csvLines csv).length - 1 := by
    rw [hvals, List.length_map, List.length_drop]
  have hfiltermq : ((importKeyMapQ s.lookupSrc csv).2).filter Query.isInsert = [] := by
    simp only [importKeyMapQ]
    by_cases hk : collectTplnr (csvHeader csv) ((csvLines csv).drop 1) = []
    · rw [if_pos hk]
      rfl
    · rw [if_neg hk]
      rfl
  constructor
  · refine ⟨_, by rw [hred], rfl, ?_, rfl, rfl⟩
    exact hlenvals
  · refine ⟨buildRecords (csvHeader csv) (importKeyMapQ s.lookupSrc csv).1
      (jsOrStr userEmail "system") now (validateAux (csvHeader csv)
        (importKeyMapQ s.lookupSrc csv).1 ((csvLines csv).drop 1) 1).2 s.nextId,
      ?_, ?_, ?_, ?_, ?_, ?_, ?_⟩
    · rw [hred]
      simp only [List.filter_append, hfiltermq, List.nil_append]
      rfl
    · rw [buildRecords_length, hlenvals]
    · rw [hred]
    · intro rec hrec
      have hb := buildRecords_id_bounds _ _ _ _ _ _ rec hrec
      have hl := buildRecords_length (csvHeader csv) (importKeyMapQ s.lookupSrc csv).1
          (jsOrStr userEmail "system") now
          (validateAux (csvHeader csv) (importKeyMapQ s.lookupSrc csv).1
            ((csvLines csv).drop 1) 1).2 s.nextId
      omega
    · exact buildRecords_ids_nodup _ _ _ _ _ _
    · intro rec hrec old hold
      have h1 := (buildRecords_id_bounds _ _ _ _ _ _ rec hrec).1
      have h2 := hids old hold
      omega
    · intro rec hrec
      rw [hred]
      apply getEntry_append_fresh
      · intro r hr
        have h1 := (buildRecords_id_bounds _ _ _ _ _ _ rec hrec).1
        have h2 := hids r hr
        omega
      · exact buildRecords_filter_self _ _ _ _ _ _ rec hrec

set_option maxRecDepth 400000 in
/-- C1 witness: a two-row import in which the second row's tplnr does
not resolve leaves the warehouse state untouched. -/
theorem C1_all_or_nothing_import_witness :
    csvLines "scada_tag,pi_tag,product_type,tag_type,aggregation_type,tplnr\nS1,P1,Gas,Flow,SUM,T-100\nS2,P2,Gas,Flow,SUM,T-999" ≠ [] ∧
    rowErrorMsg
      (csvHeader "scada_tag,pi_tag,product_type,tag_type,aggregation_type,tplnr\nS1,P1,Gas,Flow,SUM,T-100\nS2,P2,Gas,Flow,SUM,T-999")
      (lineValues "S2,P2,Gas,Flow,SUM,T-999")
      (importKeyMap [⟨"T-100", some 42⟩]
        "scada_tag,pi_tag,product_type,tag_type,aggregation_type,tplnr\nS1,P1,Gas,Flow,SUM,T-100\nS2,P2,Gas,Flow,SUM,T-999") ≠ none ∧
    (bulkImport ⟨[], [⟨"T-100", some 42⟩], 0⟩
        "scada_tag,pi_tag,product_type,tag_type,aggregation_type,tplnr\nS1,P1,Gas,Flow,SUM,T-100\nS2,P2,Gas,Flow,SUM,T-999"
        none "t0").2.1 = ⟨[], [⟨"T-100", some 42⟩], 0⟩ := by
  refine ⟨by decide, by decide, ?_⟩
  exact (C1_all_or_nothing_import ⟨[], [⟨"T-100", some 42⟩], 0⟩
    "scada_tag,pi_tag,product_type,tag_type,aggregation_type,tplnr\nS1,P1,Gas,Flow,SUM,T-100\nS2,P2,Gas,Flow,SUM,T-999"
    none "t0" (by decide)
    ⟨"S2,P2,Gas,Flow,SUM,T-999", by decide, by decide⟩).2.2.1

set_option maxRecDepth 400000 in
/-- C2 witness: a one-row fully valid import commits exactly that row,
which is then retrievable by its generated identifier. -/
theorem C2_full_batch_import_witness :
    csvLines "scada_tag,pi_tag,product_type,tag_type,aggregation_type,tplnr\nS1,P1,Gas,Flow,SUM,T-100" ≠ [] ∧
    (csvLines "scada_tag,pi_tag,product_type,tag_type,aggregation_type,tplnr\nS1,P1,Gas,Flow,SUM,T-100").drop 1 ≠ [] ∧
    (bulkImport ⟨[], [⟨"T-100", some 42⟩], 0⟩
        "scada_tag,pi_tag,product_type,tag_type,aggregation_type,tplnr\nS1,P1,Gas,Flow,SUM,T-100"
        none "t0").2.1.table =
      [{ id := 0
       , scada_tag := "S1"
       , pi_tag := "P1"
       , product_type := "Gas"
       , tag_type := "Flow"
       , aggregation_type := "SUM"
       , conversion_factor := 1
       , ent_hid := 42
       , test_site := ""
       , api10 := ""
       , uom := ""
       , meter_id := ""
       , is_active := true
       , is_deleted := false
       , create_user := "system"
       , create_date := "t0"
       , change_user := "system"
       , change_date := "t0" }] ∧
    getEntry (bulkImport ⟨[], [⟨"T-100", some 42⟩], 0⟩
        "scada_tag,pi_tag,product_type,tag_type,aggregation_type,tplnr\nS1,P1,Gas,Flow,SUM,T-100"
        none "t0").2.1.table 0 =
      Except.ok
        { id := 0
        , scada_tag := "S1"
        , pi_tag := "P1"
        , product_type := "Gas"
        , tag_type := "Flow"
        , aggregation_type := "SUM"
        , conversion_factor := 1
        , ent_hid := 42
        , test_site := ""
        , api10 := ""
        , uom := ""
        , meter_id := ""
        , is_active := true
        , is_deleted := false
        , create_user := "system"
        , create_date := "t0"
        , change_user := "system"
        , change_date := "t0" } := by
  have h := C2_full_batch_import ⟨[], [⟨"T-100", some 42⟩], 0⟩
    "scada_tag,pi_tag,product_type,tag_type,aggregation_type,tplnr\nS1,P1,Gas,Flow,SUM,T-100"
    none "t0" (by decide) (by decide) (by decide) (by decide)
  obtain ⟨-, recs, htr, -, htable, -, -, -, hretr⟩ := h
  have htr' : ((bulkImport ⟨[], [⟨"T-100", some 42⟩], 0⟩
      "scada_tag,pi_tag,product_type,tag_type,aggregation_type,tplnr\nS1,P1,Gas,Flow,SUM,T-100"
      none "t0").2.2).filter Query.isInsert =
      [Query.insertQ
        [{ id := 0
         , scada_tag := "S1"
         , pi_tag := "P1"
         , product_type := "Gas"
         , tag_type := "Flow"
         , aggregation_type := "SUM"
         , conversion_factor := 1
         , ent_hid := 42
         , test_site := ""
         , api10 := ""
         , uom := ""
         , meter_id := ""
         , is_active := true
         , is_deleted := false
         , create_user := "system"
         , create_date := "t0"
         , change_user := "system"
         , change_date := "t0" }]] := by decide
  rw [htr] at htr'
  have hrecs := (List.cons.injEq _ _ _ _).mp htr'
  have hrecs2 : recs = _ := (Query.insertQ.injEq _ _).mp hrecs.1
  subst hrecs2
  refine ⟨by decide, by decide, by simpa using htable, ?_⟩
  have hy := hretr _ (List.mem_singleton.mpr rfl)
  exact hy

/-- C8: update field isolation.  updateEntry fails with the
no-fields-to-update error — leaving the table untouched — when no field
of the payload is defined; otherwise it rewrites only the rows carrying
the target id, and on such a row every defined payload field is written,
every undefined payload field keeps its prior value, exactly change_user
and change_date are additionally stamped, and id, lifecycle flags and
creation audit fields are untouched. -/
theorem C8_update_field_isolation (table : List DataEntry) (idv : Nat) (d : UpdFields)
    (userEmail : Option String) (now : String) :
    (d.isEmptySet = true →
      updateEntry table idv d userEmail now = (table, Except.error DbError.noFieldsToUpdate)) ∧
    (d.isEmptySet = false →
      List.Forall₂ (fun r r' =>
          (r.id ≠ idv → r' = r) ∧
          (r.id = idv →
            r'.id = r.id ∧ r'.is_active = r.is_active ∧ r'.is_deleted = r.is_deleted ∧
            r'.create_user = r.create_user ∧ r'.create_date = r.create_date ∧
            r'.change_user = jsOrStr userEmail "system" ∧ r'.change_date = now ∧
            r'.scada_tag = d.scada_tag.getD r.scada_tag ∧
            r'.pi_tag = d.pi_tag.getD r.pi_tag ∧
            r'.product_type = d.product_type.getD r.product_type ∧
            r'.tag_type = d.tag_type.getD r.tag_type ∧
            r'.aggregation_type = d.aggregation_type.getD r.aggregation_type ∧
            r'.conversion_factor = d.conversion_factor.getD r.conversion_factor ∧
            r'.ent_hid = d.ent_hid.getD r.ent_hid ∧
            r'.test_site = d.test_site.getD r.test_site ∧
            r'.api10 = d.api10.getD r.api10 ∧
            r'.uom = d.uom.getD r.uom ∧
            r'.meter_id = d.meter_id.getD r.meter_id))
        table (updateEntry table idv d userEmail now).1) := by
  constructor
  · intro h
    unfold updateEntry
    rw [if_pos h]
  · intro h
    unfold updateEntry
    rw [if_neg (by simp [h])]
    simp only
    rw [List.forall₂_map_right_iff, List.forall₂_same]
    intro r _
    by_cases hid : r.id = idv
    · rw [if_pos hid]
      refine ⟨fun hne => absurd hid hne, fun _ => ?_⟩
      simp [applyUpd]
    · rw [if_neg hid]
      exact ⟨fun _ => rfl, fun heq => absurd heq hid⟩

/-- C8 witness: an empty payload is rejected without touching the
table, and a payload defining only uom rewrites the sample row to carry
the new uom and the two change stamps while every other field keeps its
prior value. -/
theorem C8_update_field_isolation_witness :
    (({} : UpdFields).isEmptySet = true ∧
      updateEntry [sampleEntry] 1 {} none "t1" =
        ([sampleEntry], Except.error DbError.noFieldsToUpdate)) ∧
    (({ uom := some "X" } : UpdFields).isEmptySet = false ∧
      List.Forall₂ (fun r r' =>
          (r.id ≠ 1 → r' = r) ∧
          (r.id = 1 →
            r'.id = r.id ∧ r'.is_active = r.is_active ∧ r'.is_deleted = r.is_deleted ∧
            r'.create_user = r.create_user ∧ r'.create_date = r.create_date ∧
            r'.change_user = jsOrStr none "system" ∧ r'.change_date = "t1" ∧
            r'.scada_tag = ({ uom := some "X" } : UpdFields).scada_tag.getD r.scada_tag ∧
            r'.pi_tag = ({ uom := some "X" } : UpdFields).pi_tag.getD r.pi_tag ∧
            r'.product_type = ({ uom := some "X" } : UpdFields).product_type.getD r.product_type ∧
            r'.tag_type = ({ uom := some "X" } : UpdFields).tag_type.getD r.tag_type ∧
            r'.aggregation_type =
              ({ uom := some "X" } : UpdFields).aggregation_type.getD r.aggregation_type ∧
            r'.conversion_factor =
              ({ uom := some "X" } : UpdFields).conversion_factor.getD r.conversion_factor ∧
            r'.ent_hid = ({ uom := some "X" } : UpdFields).ent_hid.getD r.ent_hid ∧
            r'.test_site = ({ uom := some "X" } : UpdFields).test_site.getD r.test_site ∧
            r'.api10 = ({ uom := some "X" } : UpdFields).api10.getD r.api10 ∧
            r'.uom = ({ uom := some "X" } : UpdFields).uom.getD r.uom ∧
            r'.meter_id = ({ uom := some "X" } : UpdFields).meter_id.getD r.meter_id))
        [sampleEntry] (updateEntry [sampleEntry] 1 { uom := some "X" } none "t1").1) :=
  ⟨⟨by decide,
    (C8_update_field_isolation [sampleEntry] 1 {} none "t1").1 (by decide)⟩,
   ⟨by decide,
    (C8_update_field_isolation [sampleEntry] 1 { uom := some "X" } none "t1").2 (by decide)⟩⟩
